import Mathlib

/-!
Verification of the BOLT11 "looks like" validator from `src/index.ts` of the
`bolt11-fixtures` repository.

The TypeScript sources are embedded shallowly:

* `parseBolt11TaggedFields` (the tagged-record walker) becomes `parseBolt11TaggedFields`
  over `List Nat`, with its `while` loop rendered as a structurally recursive function
  `parseTagsFuel` on an explicit iteration budget (fuel); `words.length + 1` units of
  fuel always suffice, since every iteration advances the index by at least 3.
* `parseBolt11Hrp` (the prefix-grammar parser) becomes `parseBolt11Hrp`; the regex
  `/^ln(bc|tb|bcrt|tbs)(\d+)?([munp])?$/` is embedded by `execHrpRegex`, which performs
  the regex's anchored, ordered-alternation match (with backtracking across the
  currency alternatives) by direct case analysis.
* `looksLikeBolt11` becomes `looksLikeBolt11`.  The bech32 decoder it calls lives in
  the external `bech32` npm package, not in this repository's sources; `decodeBech32`
  is modelled from the specification's description of the checksum codec.

JavaScript numbers that can only ever hold bech32 word values (integers in `[0,31]`,
as produced by the checksum codec's alphabet lookup) are embedded as `Nat`; on these
inputs JavaScript's 32-bit `<<` and `|` agree with `Nat.shiftLeft`/`Nat.lor`.
Strings are embedded as Lean `String`, and JavaScript `toLowerCase`/`toUpperCase`
as ASCII case mapping (all inputs the validator distinguishes are ASCII).
-/

/-- ASCII lowercasing of one character, as JavaScript `toLowerCase` acts on the
ASCII strings this validator handles. -/
def lowerChar (c : Char) : Char :=
  match c with
  | 'A' => 'a' | 'B' => 'b' | 'C' => 'c' | 'D' => 'd' | 'E' => 'e' | 'F' => 'f'
  | 'G' => 'g' | 'H' => 'h' | 'I' => 'i' | 'J' => 'j' | 'K' => 'k' | 'L' => 'l'
  | 'M' => 'm' | 'N' => 'n' | 'O' => 'o' | 'P' => 'p' | 'Q' => 'q' | 'R' => 'r'
  | 'S' => 's' | 'T' => 't' | 'U' => 'u' | 'V' => 'v' | 'W' => 'w' | 'X' => 'x'
  | 'Y' => 'y' | 'Z' => 'z'
  | c => c

/-- ASCII uppercasing of one character (JavaScript `toUpperCase` on ASCII). -/
def upperChar (c : Char) : Char :=
  match c with
  | 'a' => 'A' | 'b' => 'B' | 'c' => 'C' | 'd' => 'D' | 'e' => 'E' | 'f' => 'F'
  | 'g' => 'G' | 'h' => 'H' | 'i' => 'I' | 'j' => 'J' | 'k' => 'K' | 'l' => 'L'
  | 'm' => 'M' | 'n' => 'N' | 'o' => 'O' | 'p' => 'P' | 'q' => 'Q' | 'r' => 'R'
  | 's' => 'S' | 't' => 'T' | 'u' => 'U' | 'v' => 'V' | 'w' => 'W' | 'x' => 'X'
  | 'y' => 'Y' | 'z' => 'Z'
  | c => c

/-- JavaScript `s.toLowerCase()` on ASCII strings. -/
def lowerStr (s : String) : String := String.mk (s.data.map lowerChar)

/-- JavaScript `s.toUpperCase()` on ASCII strings. -/
def upperStr (s : String) : String := String.mk (s.data.map upperChar)

/-- Boolean contiguous-substring test: `pat` occurs somewhere inside `s`.
Used to state the "message contains ..." clauses of the specification. -/
def containsStr (pat s : String) : Bool :=
  (List.range (s.data.length + 1)).any
    (fun k => decide ((s.data.drop k).take pat.data.length = pat.data))

deriving instance DecidableEq for Except

/-- The bech32 character set (`BECH32_ALPHABET` in `src/index.ts`). -/
def BECH32_ALPHABET : String := "qpzry9x8gf2tvdw0s3jn54khce6mua7l"

/-- One parsed tagged field, `{ type, len }` as accumulated by
`parseBolt11TaggedFields` in `src/index.ts`. -/
structure Bolt11Tag where
  type : Char
  len : Nat

deriving Repr, DecidableEq

/-- The loop body of `parseBolt11TaggedFields` (`src/index.ts`), with the `while`
loop rendered as structural recursion on an explicit iteration budget `fuel`
(`none` = budget exhausted; `words.length + 1` units always suffice).
Faithful to the source: the `words[i] ?? 0` reads become `List.getD _ _ 0`, the
`BECH32_ALPHABET[t] ?? '?'` lookup becomes `List.getD _ _ '?'`, the length is
`(words[i+1] ?? 0) << 5 | (words[i+2] ?? 0)` (on bech32 word values these JS
32-bit operations coincide with `Nat` shift/or), and the `len < 0` guard of the
source is kept even though it can never fire on `Nat`.  Records are returned in
input order (the source pushes onto an accumulator; consing on the way back out
of the recursion yields the same list). -/
def parseTagsFuel (words : List Nat) : Nat → Nat → Option (Except String (List Bolt11Tag))
  | 0, _ => none
  | fuel + 1, i =>
    if i < words.length then
      if i + 3 > words.length then
        some (.error ("truncated tagged field header (i=" ++ toString i ++
          ", words=" ++ toString words.length ++ ")"))
      else
        let t := words.getD i 0
        let tChar := BECH32_ALPHABET.data.getD t '?'
        let len := (words.getD (i + 1) 0) <<< 5 ||| (words.getD (i + 2) 0)
        if len < 0 then
          some (.error ("invalid tagged field length (len=" ++ toString len ++ ")"))
        else if i + 3 + len > words.length then
          some (.error ("tagged field overruns section (type=" ++ String.singleton tChar ++
            ", len=" ++ toString len ++ ", i=" ++ toString (i + 3) ++
            ", words=" ++ toString words.length ++ ")"))
        else
          match parseTagsFuel words fuel (i + 3 + len) with
          | none => none
          | some (.error e) => some (.error e)
          | some (.ok rest) => some (.ok ({ type := tChar, len := len } :: rest))
    else
      some (.ok [])

/-- `parseBolt11TaggedFields` from `src/index.ts`: walk the tagged-field section.
The fuel `words.length + 1` is always sufficient (see `parseTagsFuel_isSome`),
so the default value is never used. -/
def parseBolt11TaggedFields (words : List Nat) : Except String (List Bolt11Tag) :=
  (parseTagsFuel words (words.length + 1) 0).getD (.error ("tag walk out of fuel"))

/-- Single-character class `[munp]` of the HRP regex. -/
def isMultChar (c : Char) : Bool := c == 'm' || c == 'u' || c == 'n' || c == 'p'

/-- Anchored match of the regex tail `(\d+)?([munp])?$` against `t`, returning the
two captures (`none` = group did not participate, as JavaScript reports
`undefined` for an optional group that matched nothing).  The digit run is
matched greedily; backtracking it can never help, because a digit matches
neither `[munp]` nor the anchor, so greedy matching is complete here. -/
def tailCaps (t : List Char) : Option (Option String × Option String) :=
  let d := t.takeWhile Char.isDigit
  let rest := t.drop d.length
  let dCap : Option String := if d.isEmpty then none else some (String.mk d)
  match rest with
  | [] => some (dCap, none)
  | [c] => if isMultChar c then some (dCap, some (String.singleton c)) else none
  | _ => none

/-- Try one currency alternative `c` at the start of `r`: the alternative is taken
exactly when `c` is a literal prefix of `r` and the rest of the pattern matches
the remainder. -/
def grammarHit (c : String) (r : List Char) : Option (Option String × Option String) :=
  if r.take c.data.length = c.data then tailCaps (r.drop c.data.length) else none

/-- Ordered alternation `(bc|tb|bcrt|tbs)`: try each alternative in regex order,
backtracking to the next one when the rest of the pattern fails. -/
def tryCurrencies : List String → List Char → Option (String × Option String × Option String)
  | [], _ => none
  | c :: cs, r =>
    match grammarHit c r with
    | some (d, m) => some (c, d, m)
    | none => tryCurrencies cs r

/-- `/^ln(bc|tb|bcrt|tbs)(\d+)?([munp])?$/.exec(hrp)`: the anchored regex match of
`src/index.ts`, returning the three capture groups on success. -/
def execHrpRegex (s : String) : Option (String × Option String × Option String) :=
  if s.data.take 2 = ['l', 'n'] then tryCurrencies ["bc", "tb", "bcrt", "tbs"] (s.data.drop 2)
  else none

/-- `Bolt11Network` from `src/index.ts`. -/
inductive Bolt11Network where
  | mainnet
  | testnet
  | regtest
  | signet

deriving Repr, DecidableEq

/-- The success payload of `parseBolt11Hrp` (`src/index.ts`), minus the constant
`ok: true` discriminant. -/
structure ParseHrpOk where
  hrp : String
  network : Bolt11Network
  currency : String
  amountDigits : Option String
  multiplier : Option String

deriving Repr, DecidableEq

/-- `parseBolt11Hrp` from `src/index.ts`.  The JavaScript
`amountDigits.length > 1 && amountDigits.startsWith('0')` check is embedded as a
length test plus a first-character test. -/
def parseBolt11Hrp (hrpInput : String) : Except String ParseHrpOk :=
  let hrp := lowerStr hrpInput
  match execHrpRegex hrp with
  | none => .error ("unexpected hrp for BOLT11 (hrp=" ++ hrp ++ ")")
  | some (currency, amountDigits, multiplier) =>
    if multiplier.isSome && amountDigits.isNone then
      .error ("unexpected hrp for BOLT11 (multiplier without amount, hrp=" ++ hrp ++ ")")
    else if amountDigits.any (fun d => decide (1 < d.length) && decide (d.data.take 1 = ['0'])) then
      .error ("unexpected hrp for BOLT11 (leading zeros, hrp=" ++ hrp ++ ")")
    else if amountDigits.any (fun d => decide (d = "0")) then
      .error ("unexpected hrp for BOLT11 (zero amount, hrp=" ++ hrp ++ ")")
    else
      .ok
        { hrp := hrp
          network :=
            if currency == "bc" then .mainnet
            else if currency == "tb" then .testnet
            else if currency == "bcrt" then .regtest
            else .signet
          currency := currency
          amountDigits := amountDigits
          multiplier := multiplier }

/-- Modelled from the spec: one step of the standard bech32 polymod checksum
("the running polynomial remainder over GF(32) with generator constants"),
section 4.1 of the specification.  The implementation lives in the external
`bech32` npm package, not in this repository's sources. -/
def bech32PolymodStep (chk v : Nat) : Nat :=
  let b := chk >>> 25
  let chk2 := ((chk &&& 0x1ffffff) <<< 5) ^^^ v
  let chk3 := if b &&& 1 ≠ 0 then chk2 ^^^ 0x3b6a57b2 else chk2
  let chk4 := if (b >>> 1) &&& 1 ≠ 0 then chk3 ^^^ 0x26508e6d else chk3
  let chk5 := if (b >>> 2) &&& 1 ≠ 0 then chk4 ^^^ 0x1ea119fa else chk4
  let chk6 := if (b >>> 3) &&& 1 ≠ 0 then chk5 ^^^ 0x3d4233dd else chk5
  if (b >>> 4) &&& 1 ≠ 0 then chk6 ^^^ 0x2a1462b3 else chk6

/-- Modelled from the spec: the bech32 polymod remainder of a value sequence. -/
def bech32Polymod (values : List Nat) : Nat := values.foldl bech32PolymodStep 1

/-- Modelled from the spec: "expand `prefix` into its high/low nibble form plus a
zero separator" (section 4.1). -/
def hrpExpand (hrp : String) : List Nat :=
  hrp.data.map (fun c => c.toNat >>> 5) ++ [0] ++ hrp.data.map (fun c => c.toNat &&& 31)

/-- Index of a character in the bech32 alphabet (`none` for an unknown character). -/
def charToWord (c : Char) : Option Nat :=
  BECH32_ALPHABET.data.findIdx? (fun a => a == c)

/-- Split a character list at the LAST occurrence of the separator `'1'`,
dropping the separator itself. -/
def splitLastOne (cs : List Char) : Option (List Char × List Char) :=
  match cs.reverse.findIdx? (fun c => c == '1') with
  | none => none
  | some k => some (cs.take (cs.length - 1 - k), cs.drop (cs.length - k))

/-- The success payload of `decodeBech32` (`src/index.ts`): the human-readable
part and the 5-bit data words (checksum stripped). -/
structure DecodedParts where
  hrp : String
  words : List Nat

deriving Repr, DecidableEq

/-- Modelled from the spec: the checksum codec `decode(input, maxLength)` of
section 4.1, as invoked by `decodeBech32` in `src/index.ts` with
`maxLength = 2000`.  The decoder itself is the external `bech32` npm package and
is not part of this repository's sources.  Per the spec it: rejects inputs
mixing upper and lower case (decoding then proceeds on the lowercased form);
rejects inputs longer than `maxLength`; splits on the last `'1'` and fails if
there is no separator, the human-readable part is empty, or the tail is shorter
than the 6-symbol checksum; maps tail characters through the 32-symbol alphabet,
failing on unknown characters; verifies the polymod checksum against the fixed
residue 1; and on success strips the 6 checksum symbols. -/
def decodeBech32 (s : String) : Except String DecodedParts :=
  let lowered := lowerStr s
  let uppered := upperStr s
  if s ≠ lowered ∧ s ≠ uppered then .error ("Mixed-case string " ++ s)
  else if 2000 < s.data.length then .error ("Exceeds length limit")
  else
    match splitLastOne lowered.data with
    | none => .error ("No separator character for " ++ lowered)
    | some (hrpCs, dataCs) =>
      if hrpCs.isEmpty then .error ("Missing prefix for " ++ lowered)
      else if dataCs.length < 6 then .error ("Data too short")
      else
        match dataCs.mapM charToWord with
        | none => .error ("Unknown character")
        | some syms =>
          let hrp := String.mk hrpCs
          if bech32Polymod (hrpExpand hrp ++ syms) = 1 then
            .ok { hrp := hrp, words := syms.take (syms.length - 6) }
          else
            .error ("Invalid checksum for " ++ lowered)

/-- Data words of a well-formed fixture invoice: 7 zero timestamp words, the
tagged-field header `[1, 1, 20]` (type index 1 = `'p'`, 10-bit length 52),
52 data words, and 104 zero signature words — 166 words in total. -/
def fixtureWordsP : List Nat :=
  List.replicate 7 0 ++ [1, 1, 20] ++ List.replicate 52 1 ++ List.replicate 104 0

/-- Like `fixtureWordsP` but with a `'d'` record (type index 13) instead of `'p'`. -/
def fixtureWordsD : List Nat :=
  List.replicate 7 0 ++ [13, 1, 20] ++ List.replicate 52 1 ++ List.replicate 104 0

/-- Checksum-valid bech32 encoding of `fixtureWordsP` under the hrp `lnbc`. -/
def fixtureInvoiceP : String :=
  "lnbc1qqqqqqqpp5ppppppppppppppppppppppppppppppppppppppppppppppppppppqqqqqqqqqqqqqqqqqqqqqqqqqqqqqqqqqqqqqqqqqqqqqqqqqqqqqqqqqqqqqqqqqqqqqqqqqqqqqqqqqqqqqqqqqqqqqqqqqqqqqqqqsmp52a"

/-- Checksum-valid bech32 encoding of `fixtureWordsD` under the hrp `lnbc`. -/
def fixtureInvoiceD : String :=
  "lnbc1qqqqqqqdp5ppppppppppppppppppppppppppppppppppppppppppppppppppppqqqqqqqqqqqqqqqqqqqqqqqqqqqqqqqqqqqqqqqqqqqqqqqqqqqqqqqqqqqqqqqqqqqqqqqqqqqqqqqqqqqqqqqqqqqqqqqqqqqqqqqqqnsla3"

/-- Checksum-valid bech32 encoding of the six words `[0, 1, 2, 3, 4, 5]` under
the hrp `lnbc` (the "too short" fixture of the repository's test suite). -/
def fixtureInvoiceShort : String := "lnbc1qpzry9yn79yc"

/-- Checksum-valid bech32 encoding of the empty word list under the hrp `a`. -/
def fixtureInvoiceA : String := "a12uel5l"

/-- `looksLikeBolt11` from `src/index.ts`.  `Except.ok` carries the `hrp` of the
accepted invoice; `Except.error` carries the diagnostic message (the source's
`{ ok: false, error }`, which has no other payload).  The grammar-failure branch
returns the hrp parser's error unchanged (the source returns `hrpParsed`
itself).  `slice(7, len - 104)` becomes `take (len - 104)` then `drop 7`; both
length guards have already ensured `7 ≤ len - 104 ≤ len` when the slice is
taken, where JavaScript's and `Nat`'s arithmetic agree. -/
def looksLikeBolt11 (invoice : String) : Except String String :=
  match decodeBech32 invoice with
  | .error e => .error ("bech32 decode failed: " ++ e)
  | .ok dec =>
    match parseBolt11Hrp dec.hrp with
    | .error e => .error e
    | .ok hrpParsed =>
      let minWords := 7 + 104
      if dec.words.length < minWords then
        .error ("data part too short for BOLT11 (words=" ++ toString dec.words.length ++
          ", min=" ++ toString minWords ++ ")")
      else
        let tagSectionLen := dec.words.length - 7 - 104
        if tagSectionLen ≤ 0 then
          .error ("missing tagged fields (words=" ++ toString dec.words.length ++ ")")
        else
          let tagWords := (dec.words.take (dec.words.length - 104)).drop 7
          match parseBolt11TaggedFields tagWords with
          | .error e => .error e
          | .ok tags =>
            let paymentHashTags := tags.filter (fun t => t.type == 'p')
            if paymentHashTags.length = 0 then
              .error ("missing required tagged field 'p' (payment_hash)")
            else if !(paymentHashTags.any (fun t => t.len == 52)) then
              let lens := String.intercalate ("," : String)
                (paymentHashTags.map (fun t => toString t.len))
              .error ("invalid 'p' tagged field length (expected 52 words, got " ++
                (if lens = "" then ("none" : String) else lens) ++ ")")
            else
              .ok hrpParsed.hrp

/-- Structured failure modes of the tagged-record walk, as the specification
describes them (truncated header; record overrunning the section). -/
inductive WalkError where
  | truncated (i total : Nat)
  | overrun (type : Char) (length i total : Nat)

deriving Repr, DecidableEq

/-- Rendering of a structured walk failure as the diagnostic message of
`src/index.ts`; the overrun message carries the type, length, position and
total the spec asks for. -/
def renderWalkError : WalkError → String
  | .truncated i total =>
    "truncated tagged field header (i=" ++ toString i ++ ", words=" ++ toString total ++ ")"
  | .overrun type length i total =>
    "tagged field overruns section (type=" ++ String.singleton type ++
      ", len=" ++ toString length ++ ", i=" ++ toString i ++
      ", words=" ++ toString total ++ ")"

/-- Modelled from the spec: the tagged-record walk exactly as the specification
words it — a single forward pass from `i = 0` that fails on a truncated header
when fewer than 3 symbols remain, reads `type = alphabet[symbols[i]]` and the
10-bit big-endian `length = symbols[i+1]*32 + symbols[i+2]`, advances past the
3 header symbols, fails with an overrun if `length` exceeds the symbols
remaining, and otherwise records `{type, length}` and advances by `length`,
succeeding exactly when the pass ends at `i = len(symbols)`.  Fueled like
`parseTagsFuel`. -/
def walkRecordsFuel (w : List Nat) : Nat → Nat → Option (Except WalkError (List Bolt11Tag))
  | 0, _ => none
  | fuel + 1, i =>
    if i < w.length then
      if i + 3 > w.length then some (.error (.truncated i w.length))
      else if i + 3 + ((w.getD (i + 1) 0) * 32 + (w.getD (i + 2) 0)) > w.length then
        some (.error (.overrun (BECH32_ALPHABET.data.getD (w.getD i 0) '?')
          ((w.getD (i + 1) 0) * 32 + (w.getD (i + 2) 0)) (i + 3) w.length))
      else
        match walkRecordsFuel w fuel (i + 3 + ((w.getD (i + 1) 0) * 32 + (w.getD (i + 2) 0))) with
        | none => none
        | some (.error e) => some (.error e)
        | some (.ok rest) =>
          some (.ok (Bolt11Tag.mk (BECH32_ALPHABET.data.getD (w.getD i 0) '?')
            ((w.getD (i + 1) 0) * 32 + (w.getD (i + 2) 0)) :: rest))
    else some (.ok [])

/-- Modelled from the spec: totalisation of `walkRecordsFuel` with the
always-sufficient fuel budget. -/
def walkRecords (w : List Nat) : Except WalkError (List Bolt11Tag) :=
  (walkRecordsFuel w (w.length + 1) 0).getD (.error (.truncated 0 0))

/-- Modelled from the spec: the amount rules applied to the two regex captures —
a multiplier without a digit run fails, a digit run with a leading zero (length
above one starting with `'0'`) fails, and the run `"0"` itself fails. -/
def rulesOk (dc mc : Option String) : Bool :=
  !(mc.isSome && dc.isNone) &&
  !(dc.any (fun d => decide (1 < d.length) && decide (d.data.take 1 = ['0']))) &&
  !(dc.any (fun d => decide (d = "0")))

/-- Modelled from the spec: the tail of the prefix grammar after the currency —
an optional digit run followed by an optional multiplier letter, anchored at the
end, subject to the amount rules. -/
def amountTailOk (t : List Char) : Bool :=
  (decide (t.drop (t.takeWhile Char.isDigit).length = []) ||
    (decide ((t.drop (t.takeWhile Char.isDigit).length).length = 1) &&
      (t.drop (t.takeWhile Char.isDigit).length).all isMultChar)) &&
  (decide (t.drop (t.takeWhile Char.isDigit).length = []) ||
    decide (t.takeWhile Char.isDigit ≠ [])) &&
  (decide (t.takeWhile Char.isDigit = []) ||
    (!(decide (1 < (t.takeWhile Char.isDigit).length) &&
        decide ((t.takeWhile Char.isDigit).take 1 = ['0'])) &&
      decide (t.takeWhile Char.isDigit ≠ ['0'])))

/-- Modelled from the spec: the anchored prefix grammar — `ln`, then one of the
currencies `bc`/`tb`/`bcrt`/`tbs`, then the amount tail with its rules. -/
def hrpGrammarAccepts (hrp : String) : Bool :=
  ["bc", "tb", "bcrt", "tbs"].any (fun c =>
    decide (hrp.data.take 2 = ['l', 'n']) &&
    decide ((hrp.data.drop 2).take c.data.length = c.data) &&
    amountTailOk ((hrp.data.drop 2).drop c.data.length))

/-- Codec-stage rejection family: messages prefixed `bech32 decode failed: `. -/
def isCodecMsg (e : String) : Prop := ∃ d, e = "bech32 decode failed: " ++ d

/-- Grammar-stage rejection family: messages prefixed
`unexpected hrp for BOLT11 (`. -/
def isGrammarMsg (e : String) : Prop := ∃ t, e = "unexpected hrp for BOLT11 (" ++ t

/-- Structure-stage rejection family: length, layout, truncation and overrun
messages. -/
def isStructureMsg (e : String) : Prop :=
  containsStr ("too short") e = true ∨ containsStr ("tagged fields") e = true ∨
  containsStr ("truncated") e = true ∨ containsStr ("overruns") e = true

/-- Semantics-stage rejection family: mandatory payment-hash messages. -/
def isSemanticsMsg (e : String) : Prop :=
  containsStr ("missing required") e = true ∨
  containsStr ("invalid 'p' tagged field length") e = true

theorem containsStr_append_left (pat s t : String) (h : containsStr pat s = true) :
    containsStr pat (s ++ t) = true := by
  unfold containsStr at h ⊢
  rw [List.any_eq_true] at h ⊢
  obtain ⟨k, hk, hcond⟩ := h
  rw [List.mem_range] at hk
  have hcond' := of_decide_eq_true hcond
  have hlenpat : pat.data.length ≤ s.data.length - k := by
    have := congrArg List.length hcond'
    rw [List.length_take, List.length_drop] at this
    omega
  refine ⟨k, ?_, ?_⟩
  · rw [List.mem_range, String.data_append, List.length_append]
    omega
  · rw [String.data_append, List.drop_append_of_le_length (by omega),
      List.take_append_of_le_length (by rw [List.length_drop]; omega), hcond']
    simp

theorem containsStr_append_right (pat s t : String) (h : containsStr pat t = true) :
    containsStr pat (s ++ t) = true := by
  unfold containsStr at h ⊢
  rw [List.any_eq_true] at h ⊢
  obtain ⟨k, hk, hcond⟩ := h
  rw [List.mem_range] at hk
  have hcond' := of_decide_eq_true hcond
  refine ⟨s.data.length + k, ?_, ?_⟩
  · rw [List.mem_range, String.data_append, List.length_append]
    omega
  · rw [String.data_append, List.drop_append, hcond']
    simp

/-- On bech32 word values (< 32), JavaScript's 32-bit `(a << 5) | b` agrees with
`Nat` shift/or and equals `a * 32 + b`. -/
theorem shl5_or_eq : ∀ a < 32, ∀ b < 32, a <<< 5 ||| b = a * 32 + b := by decide

theorem parseTagsFuel_zero (words : List Nat) (i : Nat) :
    parseTagsFuel words 0 i = none := rfl

/-- One-step unfolding of the fueled walker (the `let`s of the definition
zeta-reduced). -/
theorem parseTagsFuel_succ (words : List Nat) (fuel i : Nat) :
    parseTagsFuel words (fuel + 1) i =
      (if i < words.length then
        if i + 3 > words.length then
          some (.error ("truncated tagged field header (i=" ++ toString i ++
            ", words=" ++ toString words.length ++ ")"))
        else if (words.getD (i + 1) 0) <<< 5 ||| (words.getD (i + 2) 0) < 0 then
          some (.error ("invalid tagged field length (len=" ++
            toString ((words.getD (i + 1) 0) <<< 5 ||| (words.getD (i + 2) 0)) ++ ")"))
        else if i + 3 + ((words.getD (i + 1) 0) <<< 5 ||| (words.getD (i + 2) 0)) > words.length then
          some (.error ("tagged field overruns section (type=" ++
            String.singleton (BECH32_ALPHABET.data.getD (words.getD i 0) '?') ++
            ", len=" ++ toString ((words.getD (i + 1) 0) <<< 5 ||| (words.getD (i + 2) 0)) ++
            ", i=" ++ toString (i + 3) ++ ", words=" ++ toString words.length ++ ")"))
        else
          match parseTagsFuel words fuel
              (i + 3 + ((words.getD (i + 1) 0) <<< 5 ||| (words.getD (i + 2) 0))) with
          | none => none
          | some (.error e) => some (.error e)
          | some (.ok rest) =>
            some (.ok (Bolt11Tag.mk (BECH32_ALPHABET.data.getD (words.getD i 0) '?')
              ((words.getD (i + 1) 0) <<< 5 ||| (words.getD (i + 2) 0)) :: rest))
      else some (.ok [])) := rfl

/-- Fuel monotonicity: a completed walk is stable under extra fuel. -/
theorem parseTagsFuel_mono (words : List Nat) :
    ∀ fuel i r, parseTagsFuel words fuel i = some r →
      parseTagsFuel words (fuel + 1) i = some r := by
  intro fuel
  induction fuel with
  | zero => intro i r h; rw [parseTagsFuel_zero] at h; exact Option.noConfusion h
  | succ g ih =>
    intro i r h
    rw [parseTagsFuel_succ] at h
    rw [parseTagsFuel_succ]
    by_cases hi : i < words.length
    · rw [if_pos hi] at h ⊢
      by_cases h3 : i + 3 > words.length
      · rw [if_pos h3] at h ⊢; exact h
      · rw [if_neg h3] at h ⊢
        rw [if_neg (Nat.not_lt_zero _)] at h ⊢
        by_cases h4 : i + 3 + ((words.getD (i + 1) 0) <<< 5 ||| (words.getD (i + 2) 0)) > words.length
        · rw [if_pos h4] at h ⊢; exact h
        · rw [if_neg h4] at h ⊢
          cases hrec : parseTagsFuel words g
              (i + 3 + ((words.getD (i + 1) 0) <<< 5 ||| (words.getD (i + 2) 0))) with
          | none => rw [hrec] at h; exact Option.noConfusion h
          | some r' =>
            rw [hrec] at h
            rw [ih _ _ hrec]
            exact h
    · rw [if_neg hi] at h ⊢; exact h

/-- Fuel monotonicity, iterated. -/
theorem parseTagsFuel_mono_le (words : List Nat) :
    ∀ f g i r, f ≤ g → parseTagsFuel words f i = some r →
      parseTagsFuel words g i = some r := by
  intro f g
  induction g with
  | zero =>
    intro i r hle h
    obtain rfl : f = 0 := Nat.le_zero.mp hle
    exact h
  | succ g ih =>
    intro i r hle h
    rcases Nat.lt_or_ge f (g + 1) with hlt | hge
    · exact parseTagsFuel_mono words g i r (ih i r (by omega) h)
    · obtain rfl : f = g + 1 := by omega
      exact h

/-- A fuel budget of `fuel + 1` with `words.length ≤ i + 3 * fuel` is sufficient:
the walker completes rather than running out of fuel. -/
theorem parseTagsFuel_exists (words : List Nat) :
    ∀ fuel i, words.length ≤ i + 3 * fuel →
      ∃ r, parseTagsFuel words (fuel + 1) i = some r := by
  intro fuel
  induction fuel with
  | zero =>
    intro i h1
    have hni : ¬ i < words.length := by omega
    rw [parseTagsFuel_succ, if_neg hni]
    exact ⟨.ok [], rfl⟩
  | succ f ih =>
    intro i h1
    rw [parseTagsFuel_succ]
    by_cases hi : i < words.length
    · rw [if_pos hi]
      by_cases h3 : i + 3 > words.length
      · rw [if_pos h3]; exact ⟨_, rfl⟩
      · rw [if_neg h3, if_neg (Nat.not_lt_zero _)]
        by_cases h4 : i + 3 + ((words.getD (i + 1) 0) <<< 5 ||| (words.getD (i + 2) 0)) > words.length
        · rw [if_pos h4]; exact ⟨_, rfl⟩
        · rw [if_neg h4]
          obtain ⟨r, hr⟩ := ih (i + 3 + ((words.getD (i + 1) 0) <<< 5 ||| (words.getD (i + 2) 0)))
            (by omega)
          rw [hr]
          cases r with
          | error e => exact ⟨_, rfl⟩
          | ok rest => exact ⟨_, rfl⟩
    · rw [if_neg hi]; exact ⟨.ok [], rfl⟩

/-- The canonical fuel budget of `parseBolt11TaggedFields` is sufficient, and the
totalised function is the value the fueled walker computes. -/
theorem parseTagsFuel_rep (words : List Nat) :
    parseTagsFuel words (words.length + 1) 0 = some (parseBolt11TaggedFields words) := by
  obtain ⟨r, hr⟩ := parseTagsFuel_exists words words.length 0 (by omega)
  rw [parseBolt11TaggedFields, hr, Option.getD_some]

/-- Every error the fueled walker can produce is a truncation or an overrun
message; in particular the `len < 0` branch of the source is unreachable. -/
theorem parseTagsFuel_error (words : List Nat) :
    ∀ fuel i e, parseTagsFuel words fuel i = some (.error e) →
      containsStr ("truncated") e = true ∨ containsStr ("overruns") e = true := by
  intro fuel
  induction fuel with
  | zero => intro i e h; rw [parseTagsFuel_zero] at h; exact Option.noConfusion h
  | succ f ih =>
    intro i e h
    rw [parseTagsFuel_succ] at h
    by_cases hi : i < words.length
    · rw [if_pos hi] at h
      by_cases h3 : i + 3 > words.length
      · rw [if_pos h3] at h
        left
        obtain rfl : ("truncated tagged field header (i=" ++ toString i ++
            ", words=" ++ toString words.length ++ ")") = e :=
          Except.error.inj (Option.some.inj h)
        refine containsStr_append_left _ _ _ (containsStr_append_left _ _ _
          (containsStr_append_left _ _ _ (containsStr_append_left _ _ _ ?_)))
        decide
      · rw [if_neg h3, if_neg (Nat.not_lt_zero _)] at h
        by_cases h4 : i + 3 + ((words.getD (i + 1) 0) <<< 5 ||| (words.getD (i + 2) 0)) > words.length
        · rw [if_pos h4] at h
          right
          obtain rfl : ("tagged field overruns section (type=" ++
              String.singleton (BECH32_ALPHABET.data.getD (words.getD i 0) '?') ++
              ", len=" ++ toString ((words.getD (i + 1) 0) <<< 5 ||| (words.getD (i + 2) 0)) ++
              ", i=" ++ toString (i + 3) ++
              ", words=" ++ toString words.length ++ ")") = e :=
            Except.error.inj (Option.some.inj h)
          refine containsStr_append_left _ _ _ (containsStr_append_left _ _ _
            (containsStr_append_left _ _ _ (containsStr_append_left _ _ _
            (containsStr_append_left _ _ _ (containsStr_append_left _ _ _
            (containsStr_append_left _ _ _ (containsStr_append_left _ _ _ ?_)))))))
          decide
        · rw [if_neg h4] at h
          cases hr : parseTagsFuel words f
              (i + 3 + ((words.getD (i + 1) 0) <<< 5 ||| (words.getD (i + 2) 0))) with
          | none => rw [hr] at h; exact Option.noConfusion h
          | some r =>
            rw [hr] at h
            cases r with
            | error e' =>
              obtain rfl : e' = e := Except.error.inj (Option.some.inj h)
              exact ih _ _ hr
            | ok rest => exact Except.noConfusion (Option.some.inj h)
    · rw [if_neg hi] at h
      exact Except.noConfusion (Option.some.inj h)

theorem walkRecordsFuel_succ (w : List Nat) (fuel i : Nat) :
    walkRecordsFuel w (fuel + 1) i =
      (if i < w.length then
        if i + 3 > w.length then some (.error (.truncated i w.length))
        else if i + 3 + ((w.getD (i + 1) 0) * 32 + (w.getD (i + 2) 0)) > w.length then
          some (.error (.overrun (BECH32_ALPHABET.data.getD (w.getD i 0) '?')
            ((w.getD (i + 1) 0) * 32 + (w.getD (i + 2) 0)) (i + 3) w.length))
        else
          match walkRecordsFuel w fuel (i + 3 + ((w.getD (i + 1) 0) * 32 + (w.getD (i + 2) 0))) with
          | none => none
          | some (.error e) => some (.error e)
          | some (.ok rest) =>
            some (.ok (Bolt11Tag.mk (BECH32_ALPHABET.data.getD (w.getD i 0) '?')
              ((w.getD (i + 1) 0) * 32 + (w.getD (i + 2) 0)) :: rest))
      else some (.ok [])) := rfl

/-- Reads through `getD _ _ 0` of a list of bech32 words stay below 32. -/
theorem getD_lt_32 {w : List Nat} (h : ∀ x ∈ w, x < 32) (j : Nat) : w.getD j 0 < 32 := by
  rw [List.getD_eq_getElem?_getD]
  cases hj : w[j]? with
  | none => simp
  | some x =>
    simp only [Option.getD_some]
    exact h x (List.getElem?_mem hj)

/-- On bech32 word sequences the source walker and the spec walker agree step
for step, with the structured errors rendered to the source's messages. -/
theorem parseTagsFuel_eq_walk (w : List Nat) (h : ∀ x ∈ w, x < 32) :
    ∀ fuel i, parseTagsFuel w fuel i =
      (walkRecordsFuel w fuel i).map (Except.mapError renderWalkError) := by
  intro fuel
  induction fuel with
  | zero => intro i; rw [parseTagsFuel_zero]; rfl
  | succ f ih =>
    intro i
    rw [parseTagsFuel_succ, walkRecordsFuel_succ]
    have hlen : (w.getD (i + 1) 0) <<< 5 ||| (w.getD (i + 2) 0)
        = (w.getD (i + 1) 0) * 32 + (w.getD (i + 2) 0) :=
      shl5_or_eq _ (getD_lt_32 h _) _ (getD_lt_32 h _)
    rw [hlen]
    by_cases hi : i < w.length
    · rw [if_pos hi, if_pos hi]
      by_cases h3 : i + 3 > w.length
      · rw [if_pos h3, if_pos h3]; rfl
      · rw [if_neg h3, if_neg h3, if_neg (Nat.not_lt_zero _)]
        by_cases h4 : i + 3 + ((w.getD (i + 1) 0) * 32 + (w.getD (i + 2) 0)) > w.length
        · rw [if_pos h4, if_pos h4]; rfl
        · rw [if_neg h4, if_neg h4, ih]
          cases walkRecordsFuel w f (i + 3 + ((w.getD (i + 1) 0) * 32 + (w.getD (i + 2) 0))) with
          | none => rfl
          | some r =>
            cases r with
            | error e => rfl
            | ok rest => rfl
    · rw [if_neg hi, if_neg hi]; rfl

/-- Totalised agreement of the source walker with the spec walker. -/
theorem parseBolt11TaggedFields_eq_walk (w : List Nat) (h : ∀ x ∈ w, x < 32) :
    parseBolt11TaggedFields w = Except.mapError renderWalkError (walkRecords w) := by
  have heq := parseTagsFuel_eq_walk w h (w.length + 1) 0
  rw [parseTagsFuel_rep] at heq
  obtain ⟨r, hr, hmap⟩ := Option.map_eq_some'.mp heq.symm
  rw [walkRecords, hr, Option.getD_some, hmap]

/-- Every alphabet lookup at an index below 32 lands inside the alphabet. -/
theorem alphaChar_mem : ∀ t < 32, BECH32_ALPHABET.data.getD t '?' ∈ BECH32_ALPHABET.data := by
  decide

/-- Every alphabet lookup at an index below 32 misses the fallback `'?'`. -/
theorem alphaChar_ne : ∀ t < 32, BECH32_ALPHABET.data.getD t '?' ≠ '?' := by decide

/-- On bech32 word sequences, every record of a successful walk has its type in
the alphabet (never the `'?'` fallback) and its length in `[0, 1023]`. -/
theorem parseTagsFuel_ok_bounds (w : List Nat) (h : ∀ x ∈ w, x < 32) :
    ∀ fuel i tags, parseTagsFuel w fuel i = some (.ok tags) →
      ∀ t ∈ tags, t.type ∈ BECH32_ALPHABET.data ∧ t.type ≠ '?' ∧ t.len ≤ 1023 := by
  intro fuel
  induction fuel with
  | zero =>
    intro i tags hh
    rw [parseTagsFuel_zero] at hh
    exact Option.noConfusion hh
  | succ f ih =>
    intro i tags hh
    rw [parseTagsFuel_succ] at hh
    by_cases hi : i < w.length
    · rw [if_pos hi] at hh
      by_cases h3 : i + 3 > w.length
      · rw [if_pos h3] at hh
        exact Except.noConfusion (Option.some.inj hh)
      · rw [if_neg h3, if_neg (Nat.not_lt_zero _)] at hh
        by_cases h4 : i + 3 + ((w.getD (i + 1) 0) <<< 5 ||| (w.getD (i + 2) 0)) > w.length
        · rw [if_pos h4] at hh
          exact Except.noConfusion (Option.some.inj hh)
        · rw [if_neg h4] at hh
          cases hr : parseTagsFuel w f (i + 3 + ((w.getD (i + 1) 0) <<< 5 ||| (w.getD (i + 2) 0))) with
          | none => rw [hr] at hh; exact Option.noConfusion hh
          | some r =>
            rw [hr] at hh
            cases r with
            | error e => exact Except.noConfusion (Option.some.inj hh)
            | ok rest =>
              obtain rfl : Bolt11Tag.mk (BECH32_ALPHABET.data.getD (w.getD i 0) '?')
                  ((w.getD (i + 1) 0) <<< 5 ||| (w.getD (i + 2) 0)) :: rest = tags :=
                Except.ok.inj (Option.some.inj hh)
              intro t ht
              rcases List.mem_cons.mp ht with rfl | hmem
              · refine ⟨alphaChar_mem _ (getD_lt_32 h i), alphaChar_ne _ (getD_lt_32 h i), ?_⟩
                show (w.getD (i + 1) 0) <<< 5 ||| (w.getD (i + 2) 0) ≤ 1023
                rw [shl5_or_eq _ (getD_lt_32 h (i + 1)) _ (getD_lt_32 h (i + 2))]
                have hb1 := getD_lt_32 h (i + 1)
                have hb2 := getD_lt_32 h (i + 2)
                omega
              · exact ih _ _ hr t hmem
    · rw [if_neg hi] at hh
      obtain rfl : ([] : List Bolt11Tag) = tags := Except.ok.inj (Option.some.inj hh)
      intro t ht
      exact absurd ht (List.not_mem_nil t)

/-- C2: on sequences of 5-bit symbols, the tagged-record walker
`parseBolt11TaggedFields` performs exactly the single forward pass the spec
describes: it agrees record for record (and failure for failure) with the
spec-worded walk `walkRecords`, whose truncation failures render to messages
containing "truncated" and whose overrun failures render to messages containing
"overruns" (with type, length, position and total included); success returns
the ordered record list and occurs exactly when the pass consumes the section
with zero remainder. -/
theorem claim_C2 (w : List Nat) (h : ∀ x ∈ w, x < 32) :
    parseBolt11TaggedFields w = Except.mapError renderWalkError (walkRecords w) ∧
    (∀ i total, containsStr ("truncated") (renderWalkError (.truncated i total)) = true) ∧
    (∀ c l i total, containsStr ("overruns") (renderWalkError (.overrun c l i total)) = true) := by
  refine ⟨parseBolt11TaggedFields_eq_walk w h, ?_, ?_⟩
  · intro i total
    refine containsStr_append_left _ _ _ (containsStr_append_left _ _ _
      (containsStr_append_left _ _ _ (containsStr_append_left _ _ _ ?_)))
    decide
  · intro c l i total
    refine containsStr_append_left _ _ _ (containsStr_append_left _ _ _
      (containsStr_append_left _ _ _ (containsStr_append_left _ _ _
      (containsStr_append_left _ _ _ (containsStr_append_left _ _ _
      (containsStr_append_left _ _ _ (containsStr_append_left _ _ _ ?_)))))))
    decide

theorem claim_C2_witness :
    parseBolt11TaggedFields [1, 0, 2, 9, 9] =
      Except.mapError renderWalkError (walkRecords [1, 0, 2, 9, 9]) :=
  (claim_C2 [1, 0, 2, 9, 9] (by decide)).1

/-- C9: the walker terminates on every finite symbol sequence — the loop
advances its index by at least 3 per iteration, so an iteration budget of
`⌈len(words)/3⌉` (plus the final loop test) always completes and computes the
total function `parseBolt11TaggedFields`. -/
theorem claim_C9 (w : List Nat) (fuel : Nat) (hfuel : (w.length + 2) / 3 ≤ fuel) :
    parseTagsFuel w (fuel + 1) 0 = some (parseBolt11TaggedFields w) := by
  obtain ⟨r, hr⟩ := parseTagsFuel_exists w fuel 0 (by omega)
  have h1 := parseTagsFuel_mono_le w (fuel + 1) (fuel + 1 + (w.length + 1)) 0 r (by omega) hr
  have h2 := parseTagsFuel_mono_le w (w.length + 1) (fuel + 1 + (w.length + 1)) 0
    (parseBolt11TaggedFields w) (by omega) (parseTagsFuel_rep w)
  rw [hr]
  rw [h1] at h2
  exact h2

theorem claim_C9_witness :
    parseTagsFuel [1, 1, 2, 5, 5] (2 + 1) 0 = some (parseBolt11TaggedFields [1, 1, 2, 5, 5]) :=
  claim_C9 [1, 1, 2, 5, 5] 2 (by decide)

/-- C10: under the precondition that every input symbol is in `[0, 31]`, every
record of a successful `parseBolt11TaggedFields` run has a type drawn from the
32-character alphabet (the `'?'` fallback never appears) and a length in
`[0, 1023]`; and every failure is a truncation or overrun — the negative-length
branch is unreachable. -/
theorem claim_C10 (w : List Nat) (h : ∀ x ∈ w, x < 32) :
    (∀ tags, parseBolt11TaggedFields w = .ok tags →
      ∀ t ∈ tags, t.type ∈ BECH32_ALPHABET.data ∧ t.type ≠ '?' ∧ t.len ≤ 1023) ∧
    (∀ e, parseBolt11TaggedFields w = .error e →
      containsStr ("truncated") e = true ∨ containsStr ("overruns") e = true) := by
  constructor
  · intro tags htags t ht
    have hrep := parseTagsFuel_rep w
    rw [htags] at hrep
    exact parseTagsFuel_ok_bounds w h _ _ _ hrep t ht
  · intro e he
    have hrep := parseTagsFuel_rep w
    rw [he] at hrep
    exact parseTagsFuel_error w _ _ _ hrep

theorem claim_C10_witness :
    ('p' : Char) ∈ BECH32_ALPHABET.data ∧ ('p' : Char) ≠ '?' ∧ (2 : Nat) ≤ 1023 :=
  (claim_C10 [1, 0, 2, 9, 9] (by decide)).1 [Bolt11Tag.mk 'p' 2] (by decide)
    (Bolt11Tag.mk 'p' 2) (by decide)

/-- A failed tail match means the spec-side amount tail also rejects. -/
theorem amountTailOk_of_tailCaps_none (t : List Char) (h : tailCaps t = none) :
    amountTailOk t = false := by
  simp only [tailCaps] at h
  unfold amountTailOk
  cases hrest : t.drop (t.takeWhile Char.isDigit).length with
  | nil => rw [hrest] at h; exact Option.noConfusion h
  | cons c cs =>
    rw [hrest] at h
    cases cs with
    | nil =>
      have hmc : isMultChar c = true ∨ isMultChar c = false := by
        cases isMultChar c
        · exact Or.inr rfl
        · exact Or.inl rfl
      rcases hmc with hm | hm
      · simp [hm] at h
      · simp [hm]
    | cons c2 cs2 => simp

/-- A successful tail match means the spec-side amount tail agrees with the
amount rules applied to the captures. -/
theorem amountTailOk_of_tailCaps_some (t : List Char) (dc mc : Option String)
    (h : tailCaps t = some (dc, mc)) : amountTailOk t = rulesOk dc mc := by
  simp only [tailCaps] at h
  unfold amountTailOk
  cases hrest : t.drop (t.takeWhile Char.isDigit).length with
  | nil =>
    rw [hrest] at h
    have h' := Option.some.inj h
    have hdc : dc = (if (t.takeWhile Char.isDigit).isEmpty = true then none
        else some (String.mk (t.takeWhile Char.isDigit))) := (congrArg Prod.fst h').symm
    have hmc : mc = none := (congrArg Prod.snd h').symm
    subst hdc
    subst hmc
    by_cases hd : t.takeWhile Char.isDigit = []
    · simp [rulesOk, hd]
    · have hmk : (String.mk (t.takeWhile Char.isDigit) = "0") ↔
          (t.takeWhile Char.isDigit = ['0']) := String.ext_iff
      simp [rulesOk, hd, List.isEmpty_iff, String.length_mk, hmk]
  | cons c cs =>
    rw [hrest] at h
    cases cs with
    | cons c2 cs2 => exact Option.noConfusion h
    | nil =>
      have hmb : isMultChar c = true ∨ isMultChar c = false := by
        cases isMultChar c
        · exact Or.inr rfl
        · exact Or.inl rfl
      rcases hmb with hm | hm
      · simp only [hm, if_true] at h
        have h' := Option.some.inj h
        have hdc : dc = (if (t.takeWhile Char.isDigit).isEmpty = true then none
            else some (String.mk (t.takeWhile Char.isDigit))) := (congrArg Prod.fst h').symm
        have hmc : mc = some (String.singleton c) := (congrArg Prod.snd h').symm
        subst hdc
        subst hmc
        by_cases hd : t.takeWhile Char.isDigit = []
        · simp [rulesOk, hd, hm]
        · have hmk : (String.mk (t.takeWhile Char.isDigit) = "0") ↔
              (t.takeWhile Char.isDigit = ['0']) := String.ext_iff
          simp [rulesOk, hd, List.isEmpty_iff, String.length_mk, hmk, hm]
      · simp [hm] at h

/-- Exclusion: when `bcrt` is a literal prefix, the tail after `bc` starts with
`'r'` and cannot match the amount tail, so the `bc` alternative cannot hit. -/
theorem tailCaps_none_after_bc (r : List Char) (h : r.take 4 = ['b', 'c', 'r', 't']) :
    tailCaps (r.drop 2) = none := by
  have hr : r = ['b', 'c', 'r', 't'] ++ r.drop 4 := by
    conv_lhs => rw [← List.take_append_drop 4 r]
    rw [h]
  have hdig : Char.isDigit 'r' = false := by decide
  rw [show r.drop 2 = 'r' :: 't' :: r.drop 4 by rw [hr]; rfl]
  simp [tailCaps, hdig]

/-- Exclusion: when `tbs` is a literal prefix, the tail after `tb` starts with
`'s'` and cannot match the amount tail, so the `tb` alternative cannot hit. -/
theorem tailCaps_none_after_tb (r : List Char) (h : r.take 3 = ['t', 'b', 's']) :
    tailCaps (r.drop 2) = none := by
  have hr : r = ['t', 'b', 's'] ++ r.drop 3 := by
    conv_lhs => rw [← List.take_append_drop 3 r]
    rw [h]
  have hdig : Char.isDigit 's' = false := by decide
  have hmult : isMultChar 's' = false := by decide
  rw [show r.drop 2 = 's' :: r.drop 3 by rw [hr]; rfl]
  cases hx : r.drop 3 with
  | nil => simp [tailCaps, hdig, hmult]
  | cons y ys => simp [tailCaps, hdig]

theorem hit_some_elim (c : String) (r : List Char) (dc mc : Option String)
    (h : grammarHit c r = some (dc, mc)) :
    r.take c.data.length = c.data ∧ tailCaps (r.drop c.data.length) = some (dc, mc) := by
  unfold grammarHit at h
  by_cases hpre : r.take c.data.length = c.data
  · rw [if_pos hpre] at h
    exact ⟨hpre, h⟩
  · rw [if_neg hpre] at h
    exact Option.noConfusion h

/-- A hit alternative contributes exactly the amount rules of its captures. -/
theorem hit_some_conj (c : String) (r : List Char) (dc mc : Option String)
    (h : grammarHit c r = some (dc, mc)) :
    (decide (r.take c.data.length = c.data) && amountTailOk (r.drop c.data.length)) =
      rulesOk dc mc := by
  obtain ⟨hpre, htc⟩ := hit_some_elim c r dc mc h
  rw [amountTailOk_of_tailCaps_some _ _ _ htc, decide_eq_true hpre]
  simp

/-- A missed alternative contributes `false`. -/
theorem hit_none_conj (c : String) (r : List Char) (h : grammarHit c r = none) :
    (decide (r.take c.data.length = c.data) && amountTailOk (r.drop c.data.length)) = false := by
  unfold grammarHit at h
  by_cases hpre : r.take c.data.length = c.data
  · rw [if_pos hpre] at h
    rw [amountTailOk_of_tailCaps_none _ h]
    simp
  · rw [decide_eq_false hpre]
    simp

/-- The ordered-alternation regex match agrees with the order-independent
spec-side reading of the grammar: at most one currency alternative can satisfy
the whole pattern, so first-match and any-match coincide, captures included. -/
theorem tryCurrencies_vs_any (r : List Char) :
    (match tryCurrencies ["bc", "tb", "bcrt", "tbs"] r with
      | none => false
      | some (_, dc, mc) => rulesOk dc mc) =
    (["bc", "tb", "bcrt", "tbs"].any (fun c =>
      decide (r.take c.data.length = c.data) && amountTailOk (r.drop c.data.length))) := by
  simp only [List.any_cons, List.any_nil, Bool.or_false]
  cases hbc : grammarHit ("bc") r with
  | some p =>
    obtain ⟨dc, mc⟩ := p
    simp only [tryCurrencies, hbc]
    obtain ⟨hpre, htc⟩ := hit_some_elim _ _ _ _ hbc
    have hpre2 : r.take 2 = ['b', 'c'] := hpre
    have htc2 : tailCaps (r.drop 2) = some (dc, mc) := htc
    rw [hit_some_conj _ _ _ _ hbc]
    have htb : (decide (r.take ("tb" : String).data.length = ("tb" : String).data) &&
        amountTailOk (r.drop ("tb" : String).data.length)) = false := by
      have hne : ¬ (r.take 2 = ['t', 'b']) := by rw [hpre2]; decide
      show (decide (r.take 2 = ['t', 'b']) && amountTailOk (r.drop 2)) = false
      rw [decide_eq_false hne]
      simp
    have hbcrt : (decide (r.take ("bcrt" : String).data.length = ("bcrt" : String).data) &&
        amountTailOk (r.drop ("bcrt" : String).data.length)) = false := by
      by_cases h4 : r.take 4 = ['b', 'c', 'r', 't']
      · exact absurd htc2 (by rw [tailCaps_none_after_bc r h4]; simp)
      · show (decide (r.take 4 = ['b', 'c', 'r', 't']) && amountTailOk (r.drop 4)) = false
        rw [decide_eq_false h4]
        simp
    have htbs : (decide (r.take ("tbs" : String).data.length = ("tbs" : String).data) &&
        amountTailOk (r.drop ("tbs" : String).data.length)) = false := by
      by_cases h3 : r.take 3 = ['t', 'b', 's']
      · have : r.take 2 = ['t', 'b'] := by
          have := congrArg (List.take 2) h3
          rw [List.take_take] at this
          exact this
        rw [hpre2] at this
        exact absurd this (by decide)
      · show (decide (r.take 3 = ['t', 'b', 's']) && amountTailOk (r.drop 3)) = false
        rw [decide_eq_false h3]
        simp
    rw [htb, hbcrt, htbs]
    simp
  | none =>
    have hc1 := hit_none_conj ("bc") r hbc
    rw [hc1]
    cases htb : grammarHit ("tb") r with
    | some p =>
      obtain ⟨dc, mc⟩ := p
      simp only [tryCurrencies, hbc, htb]
      obtain ⟨hpre, htc⟩ := hit_some_elim _ _ _ _ htb
      have hpre2 : r.take 2 = ['t', 'b'] := hpre
      have htc2 : tailCaps (r.drop 2) = some (dc, mc) := htc
      rw [hit_some_conj _ _ _ _ htb]
      have hbcrt : (decide (r.take ("bcrt" : String).data.length = ("bcrt" : String).data) &&
          amountTailOk (r.drop ("bcrt" : String).data.length)) = false := by
        by_cases h4 : r.take 4 = ['b', 'c', 'r', 't']
        · have : r.take 2 = ['b', 'c'] := by
            have := congrArg (List.take 2) h4
            rw [List.take_take] at this
            exact this
          rw [hpre2] at this
          exact absurd this (by decide)
        · show (decide (r.take 4 = ['b', 'c', 'r', 't']) && amountTailOk (r.drop 4)) = false
          rw [decide_eq_false h4]
          simp
      have htbs : (decide (r.take ("tbs" : String).data.length = ("tbs" : String).data) &&
          amountTailOk (r.drop ("tbs" : String).data.length)) = false := by
        by_cases h3 : r.take 3 = ['t', 'b', 's']
        · exact absurd htc2 (by rw [tailCaps_none_after_tb r h3]; simp)
        · show (decide (r.take 3 = ['t', 'b', 's']) && amountTailOk (r.drop 3)) = false
          rw [decide_eq_false h3]
          simp
      rw [hbcrt, htbs]
      simp
    | none =>
      have hc2 := hit_none_conj ("tb") r htb
      rw [hc2]
      cases hbcrt : grammarHit ("bcrt") r with
      | some p =>
        obtain ⟨dc, mc⟩ := p
        simp only [tryCurrencies, hbc, htb, hbcrt]
        obtain ⟨hpre, htc⟩ := hit_some_elim _ _ _ _ hbcrt
        have hpre4 : r.take 4 = ['b', 'c', 'r', 't'] := hpre
        rw [hit_some_conj _ _ _ _ hbcrt]
        have htbs : (decide (r.take ("tbs" : String).data.length = ("tbs" : String).data) &&
            amountTailOk (r.drop ("tbs" : String).data.length)) = false := by
          by_cases h3 : r.take 3 = ['t', 'b', 's']
          · have : r.take 3 = ['b', 'c', 'r'] := by
              have := congrArg (List.take 3) hpre4
              rw [List.take_take] at this
              exact this
            rw [h3] at this
            exact absurd this (by decide)
          · show (decide (r.take 3 = ['t', 'b', 's']) && amountTailOk (r.drop 3)) = false
            rw [decide_eq_false h3]
            simp
        rw [htbs]
        simp
      | none =>
        have hc3 := hit_none_conj ("bcrt") r hbcrt
        rw [hc3]
        cases htbs : grammarHit ("tbs") r with
        | some p =>
          obtain ⟨dc, mc⟩ := p
          simp only [tryCurrencies, hbc, htb, hbcrt, htbs]
          rw [hit_some_conj _ _ _ _ htbs]
          simp
        | none =>
          have hc4 := hit_none_conj ("tbs") r htbs
          rw [hc4]
          simp only [tryCurrencies, hbc, htb, hbcrt, htbs]
          rfl

theorem lowerChar_fix : ∀ c ∈ "abcdefghijklmnopqrstuvwxyz".data, lowerChar c = c := by decide

theorem lowerChar_mem_or (c : Char) :
    lowerChar c = c ∨ lowerChar c ∈ "abcdefghijklmnopqrstuvwxyz".data := by
  unfold lowerChar
  split
  all_goals first
  | (right; decide)
  | (left; rfl)

theorem lowerChar_idem (c : Char) : lowerChar (lowerChar c) = lowerChar c := by
  rcases lowerChar_mem_or c with h | h
  · rw [h]
    exact h
  · exact lowerChar_fix _ h

theorem lowerStr_idem (s : String) : lowerStr (lowerStr s) = lowerStr s := by
  unfold lowerStr
  rw [List.map_map]
  exact congrArg String.mk (List.map_congr_left (fun a _ => lowerChar_idem a))

/-- Behaviour of the hrp parser when the regex does not match. -/
theorem parseBolt11Hrp_exec_none (s : String) (h : execHrpRegex (lowerStr s) = none) :
    parseBolt11Hrp s = .error ("unexpected hrp for BOLT11 (hrp=" ++ lowerStr s ++ ")") := by
  simp only [parseBolt11Hrp, h]

/-- Acceptance of the hrp parser, given a regex match, is exactly the amount
rules on the captures. -/
theorem parseBolt11Hrp_isOk_exec (s : String) (c : String) (dc mc : Option String)
    (h : execHrpRegex (lowerStr s) = some (c, dc, mc)) :
    (parseBolt11Hrp s).isOk = rulesOk dc mc := by
  simp only [parseBolt11Hrp, h]
  unfold rulesOk
  cases hA : (mc.isSome && dc.isNone) with
  | true => simp [hA, Except.isOk, Except.toBool]
  | false =>
    cases hB : dc.any (fun d => decide (1 < d.length) && decide (d.data.take 1 = ['0'])) with
    | true => simp [hA, hB, Except.isOk, Except.toBool]
    | false =>
      cases hC : dc.any (fun d => decide (d = "0")) with
      | true => simp [hA, hB, hC, Except.isOk, Except.toBool]
      | false => simp [hA, hB, hC, Except.isOk, Except.toBool]

/-- Glue: the regex match post-processed by the amount rules is the spec-side
grammar acceptance. -/
theorem exec_rules_eq_accepts (l : String) :
    (match execHrpRegex l with
      | none => false
      | some (_, dc, mc) => rulesOk dc mc) = hrpGrammarAccepts l := by
  unfold execHrpRegex hrpGrammarAccepts
  by_cases hln : l.data.take 2 = ['l', 'n']
  · rw [if_pos hln]
    rw [tryCurrencies_vs_any (l.data.drop 2)]
    simp only [decide_eq_true hln, Bool.true_and]
  · rw [if_neg hln]
    simp [decide_eq_false hln]

/-- The hrp parser accepts exactly the lowercased strings the spec grammar
accepts. -/
theorem parseBolt11Hrp_isOk_iff (s : String) :
    (parseBolt11Hrp s).isOk = hrpGrammarAccepts (lowerStr s) := by
  rw [← exec_rules_eq_accepts (lowerStr s)]
  cases hexec : execHrpRegex (lowerStr s) with
  | none =>
    rw [parseBolt11Hrp_exec_none s hexec]
    rfl
  | some p =>
    obtain ⟨c, dc, mc⟩ := p
    rw [parseBolt11Hrp_isOk_exec s c dc mc hexec]

/-- Helper for the grammar-error message family: every message of the hrp
parser extends the prefix `unexpected hrp for BOLT11 (`. -/
theorem errShape (a b hrp : String) (hsplit : a = "unexpected hrp for BOLT11 (" ++ b) :
    ∃ t, a ++ hrp ++ ")" = "unexpected hrp for BOLT11 (" ++ t :=
  ⟨b ++ hrp ++ ")", by
    rw [hsplit, String.append_assoc, String.append_assoc, String.append_assoc]⟩

/-- Every failure of the hrp parser carries an `unexpected hrp for BOLT11 (...)`
message. -/
theorem parseBolt11Hrp_error_shape (s : String) (e : String)
    (h : parseBolt11Hrp s = .error e) :
    ∃ t, e = "unexpected hrp for BOLT11 (" ++ t := by
  cases hexec : execHrpRegex (lowerStr s) with
  | none =>
    rw [parseBolt11Hrp_exec_none s hexec] at h
    obtain rfl := (Except.error.inj h).symm
    exact errShape _ ("hrp=") (lowerStr s) rfl
  | some p =>
    obtain ⟨c, dc, mc⟩ := p
    simp only [parseBolt11Hrp, hexec] at h
    by_cases hA : (mc.isSome && dc.isNone) = true
    · rw [if_pos hA] at h
      obtain rfl := (Except.error.inj h).symm
      exact errShape _ ("multiplier without amount, hrp=") (lowerStr s) rfl
    · rw [if_neg hA] at h
      by_cases hB : dc.any (fun d => decide (1 < d.length) && decide (d.data.take 1 = ['0'])) = true
      · rw [if_pos hB] at h
        obtain rfl := (Except.error.inj h).symm
        exact errShape _ ("leading zeros, hrp=") (lowerStr s) rfl
      · rw [if_neg hB] at h
        by_cases hC : dc.any (fun d => decide (d = "0")) = true
        · rw [if_pos hC] at h
          obtain rfl := (Except.error.inj h).symm
          exact errShape _ ("zero amount, hrp=") (lowerStr s) rfl
        · rw [if_neg hC] at h
          exact Except.noConfusion h

/-- On success, the fields of the hrp parser's result: the stored `hrp` is the
lowercased input, the invariants between multiplier and amount hold, the
amount excludes `"0"` and leading zeros, and the network is the fixed table
image of the currency. -/
theorem parseBolt11Hrp_ok_fields (s : String) (r : ParseHrpOk)
    (h : parseBolt11Hrp s = .ok r) :
    r.hrp = lowerStr s ∧
    (r.multiplier.isSome = true → r.amountDigits.isSome = true) ∧
    (∀ d, r.amountDigits = some d → d ≠ "0" ∧ ¬(1 < d.length ∧ d.data.take 1 = ['0'])) ∧
    (r.currency = "bc" → r.network = .mainnet) ∧
    (r.currency = "tb" → r.network = .testnet) ∧
    (r.currency = "bcrt" → r.network = .regtest) ∧
    (r.currency = "tbs" → r.network = .signet) := by
  cases hexec : execHrpRegex (lowerStr s) with
  | none =>
    rw [parseBolt11Hrp_exec_none s hexec] at h
    exact Except.noConfusion h
  | some p =>
    obtain ⟨c, dc, mc⟩ := p
    simp only [parseBolt11Hrp, hexec] at h
    by_cases hA : (mc.isSome && dc.isNone) = true
    · rw [if_pos hA] at h
      exact Except.noConfusion h
    · rw [if_neg hA] at h
      by_cases hB : dc.any (fun d => decide (1 < d.length) && decide (d.data.take 1 = ['0'])) = true
      · rw [if_pos hB] at h
        exact Except.noConfusion h
      · rw [if_neg hB] at h
        by_cases hC : dc.any (fun d => decide (d = "0")) = true
        · rw [if_pos hC] at h
          exact Except.noConfusion h
        · rw [if_neg hC] at h
          obtain rfl := (Except.ok.inj h).symm
          refine ⟨rfl, ?_, ?_, ?_, ?_, ?_, ?_⟩
          · intro hms
            cases dc with
            | some d => rfl
            | none =>
              rw [Bool.not_eq_true] at hA
              rw [hms] at hA
              simp at hA
          · intro d hd
            have hd' : dc = some d := hd
            rw [hd'] at hB hC
            simp only [Option.any_some] at hB hC
            constructor
            · intro hzero
              rw [hzero] at hC
              simp at hC
            · intro ⟨h1, h2⟩
              rw [Bool.not_eq_true, Bool.and_eq_false_iff] at hB
              rcases hB with hB | hB
              · rw [decide_eq_false_iff_not] at hB
                exact hB h1
              · rw [decide_eq_false_iff_not] at hB
                exact hB h2
          · intro hcur
            have hc : c = "bc" := hcur
            show (if c == "bc" then Bolt11Network.mainnet
              else if c == "tb" then Bolt11Network.testnet
              else if c == "bcrt" then Bolt11Network.regtest
              else Bolt11Network.signet) = Bolt11Network.mainnet
            rw [hc]
            decide
          · intro hcur
            have hc : c = "tb" := hcur
            show (if c == "bc" then Bolt11Network.mainnet
              else if c == "tb" then Bolt11Network.testnet
              else if c == "bcrt" then Bolt11Network.regtest
              else Bolt11Network.signet) = Bolt11Network.testnet
            rw [hc]
            decide
          · intro hcur
            have hc : c = "bcrt" := hcur
            show (if c == "bc" then Bolt11Network.mainnet
              else if c == "tb" then Bolt11Network.testnet
              else if c == "bcrt" then Bolt11Network.regtest
              else Bolt11Network.signet) = Bolt11Network.regtest
            rw [hc]
            decide
          · intro hcur
            have hc : c = "tbs" := hcur
            show (if c == "bc" then Bolt11Network.mainnet
              else if c == "tb" then Bolt11Network.testnet
              else if c == "bcrt" then Bolt11Network.regtest
              else Bolt11Network.signet) = Bolt11Network.signet
            rw [hc]
            decide

/-- C5: `parseBolt11Hrp` lowercases its input (parsing the lowercased form
changes nothing) and accepts exactly the strings whose lowercased form the
anchored grammar with its amount rules accepts; every rejection is an
`unexpected hrp for BOLT11 (...)` grammar error; the currency-to-network map is
the fixed table bc/tb/bcrt/tbs to mainnet/testnet/regtest/signet; and
`parseBolt11Hrp "lntb20m"` succeeds with network `testnet`, currency `tb`,
amount digits `"20"` and multiplier `"m"`. -/
theorem claim_C5 (s : String) :
    ((parseBolt11Hrp s).isOk = hrpGrammarAccepts (lowerStr s)) ∧
    (parseBolt11Hrp s = parseBolt11Hrp (lowerStr s)) ∧
    (∀ e, parseBolt11Hrp s = .error e → ∃ t, e = "unexpected hrp for BOLT11 (" ++ t) ∧
    (∀ r, parseBolt11Hrp s = .ok r →
      (r.currency = "bc" → r.network = .mainnet) ∧
      (r.currency = "tb" → r.network = .testnet) ∧
      (r.currency = "bcrt" → r.network = .regtest) ∧
      (r.currency = "tbs" → r.network = .signet)) ∧
    (parseBolt11Hrp ("lntb20m") =
      .ok { hrp := "lntb20m", network := .testnet, currency := "tb",
            amountDigits := some ("20"), multiplier := some ("m") }) := by
  refine ⟨parseBolt11Hrp_isOk_iff s, ?_, parseBolt11Hrp_error_shape s, ?_, by decide⟩
  · have hlow : lowerStr (lowerStr s) = lowerStr s := lowerStr_idem s
    unfold parseBolt11Hrp
    rw [hlow]
  · intro r hok
    obtain ⟨_, _, _, h4, h5, h6, h7⟩ := parseBolt11Hrp_ok_fields s r hok
    exact ⟨h4, h5, h6, h7⟩

theorem claim_C5_witness :
    ∃ t, ("unexpected hrp for BOLT11 (hrp=xyz)" : String) =
      "unexpected hrp for BOLT11 (" ++ t :=
  (claim_C5 ("xyz")).2.2.1 _ (by decide)

/-- C6: on prefixes whose lowercased form matches the grammar shape, a
multiplier without a preceding digit run is rejected, a digit run with a
leading zero (length above 1 starting `'0'`) is rejected, and the digit run
`"0"` is rejected; consequently every accepted prefix has a digit run whenever
it has a multiplier, and its digit run is neither `"0"` nor zero-led. -/
theorem claim_C6 (s : String) :
    (∀ c m, execHrpRegex (lowerStr s) = some (c, none, some m) →
      parseBolt11Hrp s =
        .error ("unexpected hrp for BOLT11 (multiplier without amount, hrp=" ++ lowerStr s ++ ")")) ∧
    (∀ c d m, execHrpRegex (lowerStr s) = some (c, some d, m) →
      ((1 < d.length ∧ d.data.take 1 = ['0']) →
        parseBolt11Hrp s =
          .error ("unexpected hrp for BOLT11 (leading zeros, hrp=" ++ lowerStr s ++ ")")) ∧
      (d = "0" →
        parseBolt11Hrp s =
          .error ("unexpected hrp for BOLT11 (zero amount, hrp=" ++ lowerStr s ++ ")"))) ∧
    (∀ r, parseBolt11Hrp s = .ok r →
      (r.multiplier.isSome = true → r.amountDigits.isSome = true) ∧
      (∀ d, r.amountDigits = some d → d ≠ "0" ∧ ¬(1 < d.length ∧ d.data.take 1 = ['0']))) := by
  refine ⟨?_, ?_, ?_⟩
  · intro c m hexec
    simp [parseBolt11Hrp, hexec]
  · intro c d m hexec
    constructor
    · intro hlead
      obtain ⟨h1, h2⟩ := hlead
      have hA : ¬ ((m.isSome && (some d).isNone) = true) := by simp
      have hB : ((some d).any
          (fun d => decide (1 < d.length) && decide (d.data.take 1 = ['0']))) = true := by
        simp [h1, h2]
      simp only [parseBolt11Hrp, hexec]
      rw [if_neg hA, if_pos hB]
    · intro h0
      subst h0
      have hA : ¬ ((m.isSome && (some ("0" : String)).isNone) = true) := by simp
      have hB : ¬ (((some ("0" : String)).any
          (fun d => decide (1 < d.length) && decide (d.data.take 1 = ['0']))) = true) := by
        decide
      have hC : ((some ("0" : String)).any (fun d => decide (d = "0"))) = true := by decide
      simp only [parseBolt11Hrp, hexec]
      rw [if_neg hA, if_neg hB, if_pos hC]
  · intro r hok
    obtain ⟨_, h2, h3, _⟩ := parseBolt11Hrp_ok_fields s r hok
    exact ⟨h2, h3⟩

theorem claim_C6_witness :
    parseBolt11Hrp ("lnbcm") =
      .error ("unexpected hrp for BOLT11 (multiplier without amount, hrp=lnbcm)") :=
  (claim_C6 ("lnbcm")).1 ("bc") ("m") (by decide)

/-- Every failure of the totalised walker is a truncation or overrun message. -/
theorem parseBolt11TaggedFields_error_msgs (w : List Nat) (e : String)
    (h : parseBolt11TaggedFields w = .error e) :
    containsStr ("truncated") e = true ∨ containsStr ("overruns") e = true := by
  have hrep := parseTagsFuel_rep w
  rw [h] at hrep
  exact parseTagsFuel_error w _ _ _ hrep

/-- C7: whenever the checksum codec rejects the input (checksum failures
included), `looksLikeBolt11` rejects with a message containing
"bech32 decode failed". -/
theorem claim_C7 (s e : String) (h : decodeBech32 s = .error e) :
    looksLikeBolt11 s = .error ("bech32 decode failed: " ++ e) ∧
    containsStr ("bech32 decode failed") ("bech32 decode failed: " ++ e) = true := by
  refine ⟨by simp only [looksLikeBolt11, h], ?_⟩
  refine containsStr_append_left _ _ _ ?_
  decide

theorem claim_C7_witness :
    looksLikeBolt11 ("lnbc1qqqqqqq") =
      .error ("bech32 decode failed: Invalid checksum for lnbc1qqqqqqq") ∧
    containsStr ("bech32 decode failed")
      ("bech32 decode failed: Invalid checksum for lnbc1qqqqqqq") = true :=
  claim_C7 ("lnbc1qqqqqqq") ("Invalid checksum for lnbc1qqqqqqq") (by decide)

/-- C4: once decoding and the prefix grammar have succeeded, fewer than 111
words is rejected with a "too short" message, exactly 111 words (an empty
tagged-field region) is rejected with a "tagged fields" message, and only
longer inputs proceed to the record walk, whose failures propagate verbatim. -/
theorem claim_C4 (s : String) (dec : DecodedParts) (r : ParseHrpOk)
    (hdec : decodeBech32 s = .ok dec) (hhrp : parseBolt11Hrp dec.hrp = .ok r) :
    (dec.words.length < 111 →
      looksLikeBolt11 s = .error ("data part too short for BOLT11 (words=" ++
        toString dec.words.length ++ ", min=" ++ toString (111 : Nat) ++ ")") ∧
      containsStr ("too short") ("data part too short for BOLT11 (words=" ++
        toString dec.words.length ++ ", min=" ++ toString (111 : Nat) ++ ")") = true) ∧
    (dec.words.length = 111 →
      looksLikeBolt11 s = .error ("missing tagged fields (words=" ++
        toString dec.words.length ++ ")") ∧
      containsStr ("tagged fields") ("missing tagged fields (words=" ++
        toString dec.words.length ++ ")") = true) ∧
    (111 < dec.words.length →
      ∀ e, parseBolt11TaggedFields ((dec.words.take (dec.words.length - 104)).drop 7) = .error e →
        looksLikeBolt11 s = .error e) := by
  refine ⟨?_, ?_, ?_⟩
  · intro hlen
    constructor
    · simp only [looksLikeBolt11, hdec, hhrp]
      split
      · rfl
      · omega
    · refine containsStr_append_left _ _ _ (containsStr_append_left _ _ _
        (containsStr_append_left _ _ _ (containsStr_append_left _ _ _ ?_)))
      decide
  · intro hlen
    constructor
    · simp only [looksLikeBolt11, hdec, hhrp]
      split
      · omega
      · split
        · rfl
        · omega
    · refine containsStr_append_left _ _ _ (containsStr_append_left _ _ _ ?_)
      decide
  · intro hlen e he
    simp only [looksLikeBolt11, hdec, hhrp]
    split
    · omega
    · split
      · omega
      · rw [he]

theorem claim_C4_witness :
    looksLikeBolt11 fixtureInvoiceShort = .error ("data part too short for BOLT11 (words=" ++
      toString (6 : Nat) ++ ", min=" ++ toString (111 : Nat) ++ ")") ∧
    containsStr ("too short") ("data part too short for BOLT11 (words=" ++
      toString (6 : Nat) ++ ", min=" ++ toString (111 : Nat) ++ ")") = true :=
  (claim_C4 fixtureInvoiceShort (DecodedParts.mk ("lnbc") [0, 1, 2, 3, 4, 5])
    (ParseHrpOk.mk ("lnbc") .mainnet ("bc") none none)
    (by decide) (by decide)).1 (by decide)

/-- C3: once the pipeline reaches the mandatory-field check, the absence of any
`'p'` record is rejected with a "missing required ... 'p'" message; `'p'`
records present but none of length exactly 52 is rejected with a message
reporting the observed lengths; otherwise the validation succeeds. -/
theorem claim_C3 (s : String) (dec : DecodedParts) (r : ParseHrpOk) (tags : List Bolt11Tag)
    (hdec : decodeBech32 s = .ok dec) (hhrp : parseBolt11Hrp dec.hrp = .ok r)
    (hlen : 111 < dec.words.length)
    (hw : parseBolt11TaggedFields ((dec.words.take (dec.words.length - 104)).drop 7) = .ok tags) :
    (tags.filter (fun t => t.type == 'p') = [] →
      looksLikeBolt11 s = .error ("missing required tagged field 'p' (payment_hash)") ∧
      containsStr ("missing required") ("missing required tagged field 'p' (payment_hash)") = true ∧
      containsStr ("'p'") ("missing required tagged field 'p' (payment_hash)") = true) ∧
    (tags.filter (fun t => t.type == 'p') ≠ [] →
      (∀ t ∈ tags.filter (fun t => t.type == 'p'), t.len ≠ 52) →
      looksLikeBolt11 s = .error ("invalid 'p' tagged field length (expected 52 words, got " ++
        (if String.intercalate (",")
              ((tags.filter (fun t => t.type == 'p')).map (fun t => toString t.len)) = ""
          then ("none" : String)
          else String.intercalate (",")
            ((tags.filter (fun t => t.type == 'p')).map (fun t => toString t.len))) ++ ")")) ∧
    ((∃ t ∈ tags.filter (fun t => t.type == 'p'), t.len = 52) →
      looksLikeBolt11 s = .ok r.hrp) := by
  refine ⟨?_, ?_, ?_⟩
  · intro hfil
    refine ⟨?_, by decide, by decide⟩
    simp only [looksLikeBolt11, hdec, hhrp]
    split
    · omega
    · split
      · omega
      · rw [hw]
        split
        · next e' heq' => exact Except.noConfusion heq'
        · next tags2 heq2 =>
          obtain rfl := Except.ok.inj heq2
          rw [hfil]
          rfl
  · intro hne h52
    simp only [looksLikeBolt11, hdec, hhrp]
    split
    · omega
    · split
      · omega
      · rw [hw]
        split
        · next e' heq' => exact Except.noConfusion heq'
        · next tags2 heq2 =>
          obtain rfl := Except.ok.inj heq2
          split
          · next h0 => exact absurd (List.length_eq_zero.mp h0) hne
          · split
            · rfl
            · next hco =>
              have hany : (tags.filter (fun t => t.type == 'p')).any
                  (fun t => t.len == 52) = true := by
                cases hb : (tags.filter (fun t => t.type == 'p')).any (fun t => t.len == 52) with
                | false => exact absurd (by rw [hb]; rfl) hco
                | true => rfl
              obtain ⟨x, hxf, hxbeq⟩ := List.any_eq_true.mp hany
              exact absurd (by simpa using hxbeq) (h52 x hxf)
  · intro hex
    obtain ⟨t, htf, h52⟩ := hex
    simp only [looksLikeBolt11, hdec, hhrp]
    split
    · omega
    · split
      · omega
      · rw [hw]
        split
        · next e' heq' => exact Except.noConfusion heq'
        · next tags2 heq2 =>
          obtain rfl := Except.ok.inj heq2
          split
          · next h0 => exact absurd (List.length_eq_zero.mp h0) (List.ne_nil_of_mem htf)
          · split
            · next hco =>
              have hany : (tags.filter (fun t => t.type == 'p')).any
                  (fun t => t.len == 52) = true :=
                List.any_eq_true.mpr ⟨t, htf, by simp [h52]⟩
              rw [hany] at hco
              exact absurd hco (by decide)
            · rfl

set_option maxRecDepth 40000 in
theorem claim_C3_witness :
    looksLikeBolt11 fixtureInvoiceD = .error ("missing required tagged field 'p' (payment_hash)") ∧
    containsStr ("missing required") ("missing required tagged field 'p' (payment_hash)") = true ∧
    containsStr ("'p'") ("missing required tagged field 'p' (payment_hash)") = true :=
  (claim_C3 fixtureInvoiceD (DecodedParts.mk ("lnbc") fixtureWordsD)
    (ParseHrpOk.mk ("lnbc") .mainnet ("bc") none none)
    [Bolt11Tag.mk 'd' 52]
    (by decide) (by decide) (by decide) (by decide)).1 (by decide)

/-- C1: whenever the input bech32-decodes, its (lowercased) prefix satisfies the
spec grammar with the amount rules, the payload has at least 111 words, the
tagged-field region `words[7 : len-104]` is non-empty and walks into records,
and some record has type `'p'` with length exactly 52, `looksLikeBolt11`
accepts and returns the lowercased prefix. -/
theorem claim_C1 (s : String) (dec : DecodedParts) (tags : List Bolt11Tag)
    (hdec : decodeBech32 s = .ok dec)
    (hgr : hrpGrammarAccepts (lowerStr dec.hrp) = true)
    (hlen : 111 ≤ dec.words.length)
    (hne : (dec.words.take (dec.words.length - 104)).drop 7 ≠ [])
    (hw : parseBolt11TaggedFields ((dec.words.take (dec.words.length - 104)).drop 7) = .ok tags)
    (hp : ∃ t ∈ tags, t.type = 'p' ∧ t.len = 52) :
    looksLikeBolt11 s = .ok (lowerStr dec.hrp) := by
  have hiok : (parseBolt11Hrp dec.hrp).isOk = true := by
    rw [parseBolt11Hrp_isOk_iff]
    exact hgr
  obtain ⟨r, hr⟩ : ∃ r, parseBolt11Hrp dec.hrp = .ok r := by
    cases hpr : parseBolt11Hrp dec.hrp with
    | ok r => exact ⟨r, rfl⟩
    | error e =>
      rw [hpr] at hiok
      exact absurd hiok (by simp [Except.isOk, Except.toBool])
  have hrhrp : r.hrp = lowerStr dec.hrp := (parseBolt11Hrp_ok_fields dec.hrp r hr).1
  have hlen2 : 111 < dec.words.length := by
    by_contra hc
    apply hne
    have hz : ((dec.words.take (dec.words.length - 104)).drop 7).length = 0 := by
      rw [List.length_drop, List.length_take]
      omega
    exact List.eq_nil_of_length_eq_zero hz
  obtain ⟨t, ht, htype, h52⟩ := hp
  have htf : t ∈ tags.filter (fun x => x.type == 'p') :=
    List.mem_filter.mpr ⟨ht, by simp [htype]⟩
  simp only [looksLikeBolt11, hdec, hr]
  split
  · omega
  · split
    · omega
    · rw [hw]
      split
      · next e' heq' => exact Except.noConfusion heq'
      · next tags2 heq2 =>
        obtain rfl := Except.ok.inj heq2
        split
        · next h0 => exact absurd (List.length_eq_zero.mp h0) (List.ne_nil_of_mem htf)
        · split
          · next hco =>
            have hany : (tags.filter (fun x => x.type == 'p')).any
                (fun x => x.len == 52) = true :=
              List.any_eq_true.mpr ⟨t, htf, by simp [h52]⟩
            rw [hany] at hco
            exact absurd hco (by decide)
          · rw [hrhrp]

set_option maxRecDepth 40000 in
theorem claim_C1_witness :
    looksLikeBolt11 fixtureInvoiceP = .ok ("lnbc") :=
  claim_C1 fixtureInvoiceP (DecodedParts.mk ("lnbc") fixtureWordsP) [Bolt11Tag.mk 'p' 52]
    (by decide) (by decide) (by decide) (by decide) (by decide) (by decide)

/-- C8 (amended): every rejection of `looksLikeBolt11` is a bare
`{ ok: false, error: message }` value — there is no `stage` field — and every
rejection message falls into at least one of the codec, grammar, structure or
semantics message families (an inclusive disjunction: a codec rejection such as
`bech32 decode failed: Data too short` also contains "too short" and so lies in
the structure family as well). -/
theorem claim_C8 (s e : String) (h : looksLikeBolt11 s = .error e) :
    isCodecMsg e ∨ isGrammarMsg e ∨ isStructureMsg e ∨ isSemanticsMsg e := by
  cases hdec : decodeBech32 s with
  | error d =>
    simp only [looksLikeBolt11, hdec] at h
    exact Or.inl ⟨d, (Except.error.inj h).symm⟩
  | ok dec =>
    cases hhrp : parseBolt11Hrp dec.hrp with
    | error eh =>
      simp only [looksLikeBolt11, hdec, hhrp] at h
      obtain rfl : eh = e := Except.error.inj h
      exact Or.inr (Or.inl (parseBolt11Hrp_error_shape _ _ hhrp))
    | ok r =>
      simp only [looksLikeBolt11, hdec, hhrp] at h
      split at h
      · obtain rfl := (Except.error.inj h).symm
        refine Or.inr (Or.inr (Or.inl (Or.inl ?_)))
        refine containsStr_append_left _ _ _ (containsStr_append_left _ _ _
          (containsStr_append_left _ _ _ (containsStr_append_left _ _ _ ?_)))
        decide
      · split at h
        · obtain rfl := (Except.error.inj h).symm
          refine Or.inr (Or.inr (Or.inl (Or.inr (Or.inl ?_))))
          refine containsStr_append_left _ _ _ (containsStr_append_left _ _ _ ?_)
          decide
        · cases hwalk : parseBolt11TaggedFields
              ((dec.words.take (dec.words.length - 104)).drop 7) with
          | error ew =>
            rw [hwalk] at h
            obtain rfl : ew = e := Except.error.inj h
            rcases parseBolt11TaggedFields_error_msgs _ _ hwalk with ht | ho
            · exact Or.inr (Or.inr (Or.inl (Or.inr (Or.inr (Or.inl ht)))))
            · exact Or.inr (Or.inr (Or.inl (Or.inr (Or.inr (Or.inr ho)))))
          | ok tags =>
            rw [hwalk] at h
            split at h
            · next e2 heq2 => exact Except.noConfusion heq2
            · next tags2 heq2 =>
              obtain rfl := Except.ok.inj heq2
              split at h
              · obtain rfl := (Except.error.inj h).symm
                refine Or.inr (Or.inr (Or.inr (Or.inl ?_)))
                decide
              · split at h
                · obtain rfl := (Except.error.inj h).symm
                  refine Or.inr (Or.inr (Or.inr (Or.inr ?_)))
                  refine containsStr_append_left _ _ _ (containsStr_append_left _ _ _ ?_)
                  decide
                · exact Except.noConfusion h

theorem claim_C8_witness :
    isCodecMsg ("bech32 decode failed: No separator character for lnbc") ∨
    isGrammarMsg ("bech32 decode failed: No separator character for lnbc") ∨
    isStructureMsg ("bech32 decode failed: No separator character for lnbc") ∨
    isSemanticsMsg ("bech32 decode failed: No separator character for lnbc") :=
  claim_C8 ("lnbc") ("bech32 decode failed: No separator character for lnbc") (by decide)

/-- C8 counterexample: the claim's asserted rejection shape
`{ ok: false, stage, message }` does not hold of the code.  On a checksum-valid
bech32 string with hrp `a`, the grammar stage fails and the returned value is
the bare message `unexpected hrp for BOLT11 (hrp=a)` — the source's rejection
type `{ ok: false, error }` carries no `stage` field, and none of the four
stage names `codec`/`grammar`/`structure`/`semantics` occurs anywhere in the
returned value. -/
theorem claim_C8_counterexample :
    looksLikeBolt11 fixtureInvoiceA = .error ("unexpected hrp for BOLT11 (hrp=a)") ∧
    containsStr ("codec") ("unexpected hrp for BOLT11 (hrp=a)") = false ∧
    containsStr ("grammar") ("unexpected hrp for BOLT11 (hrp=a)") = false ∧
    containsStr ("structure") ("unexpected hrp for BOLT11 (hrp=a)") = false ∧
    containsStr ("semantics") ("unexpected hrp for BOLT11 (hrp=a)") = false := by
  decide
